import Mathlib

/-!
Shallow embedding of `src/streamlit_app.py` (Qupath_to_LMD): the GeoJSON
cleaning pipeline, calibration checks, the sample/well mapper, the 384-well
plate layout, the metadata join, and the small utilities.  Pandas DataFrames
of features are modelled as Lean lists of a `Feature` structure; the external
shapely intersection test is abstracted as a boolean field on the geometry
(fixed per run, since the calibration triangle is fixed per run); fallible
Python code (uncaught exceptions such as IndexError / AttributeError /
AssertionError, or `ast.literal_eval` failures) is modelled with `Option` /
`Except`.
-/

/-- Shapely geometry kinds that occur in the app. -/
inductive GeomType
  | point
  | polygon
  | lineString
  | multiPolygon
  deriving DecidableEq, Repr

/-- A geometry: its kind, its coordinates when it is a Point (shapely `.x` /
`.y` raise for non-points, hence they are only exposed for `point`), and
`hits`, abstracting the external shapely test `geom.intersects(triangle)`
against the run's fixed calibration triangle. -/
structure Geom where
  kind : GeomType
  x : ℚ := 0
  y : ℚ := 0
  hits : Bool := false
  deriving DecidableEq, Repr

/-- The polymorphic `classification` column value: either a JSON-encoded
string (parsed with `ast.literal_eval(x).get('name')`) or an
already-structured dict whose `.get('name')` yields an optional name. -/
inductive ClassVal
  | str (s : String)
  | struct (nm : Option String)
  deriving DecidableEq, Repr

/-- One row of the loaded GeoJSON GeoDataFrame.  `name` is the `name` column
(`none` = NaN); `classification` is the `classification` column (`none` =
NaN); `classification_name` is the derived column added by the cleaner
(`none` before cleaning, or when the parsed dict has no name). -/
structure Feature where
  geometry : Geom
  name : Option String := none
  classification : Option ClassVal := none
  classification_name : Option String := none
  deriving DecidableEq, Repr

/-- Models `ast.literal_eval(x).get('name')` for a string classification `x`, with
the literal parse abstracted as `liteval` (outer `none` = the parse raised);
a structured classification answers `.get('name')` directly.
Source: streamlit_app.py line 78. -/
def deriveClassName (liteval : String → Option (Option String)) :
    ClassVal → Option (Option String)
  | .str s => liteval s
  | .struct nm => some nm

/-- The `apply` on line 78: add the `classification_name` column to every
row; `none` when some row's classification fails to parse (uncaught
exception) — a NaN classification row would also raise (`.get` on float),
though the caller filters those out first. -/
def deriveAll (liteval : String → Option (Option String)) :
    List Feature → Option (List Feature)
  | [] => some []
  | f :: fs =>
    match f.classification with
    | none => none
    | some c =>
      match deriveClassName liteval c with
      | none => none
      | some nm => (deriveAll liteval fs).map (fun rest => { f with classification_name := nm } :: rest)

/-- The cleaning core of `QC_geojson_file` (lines 74-78): drop Point
geometries, drop rows with null `classification`, drop MultiPolygons, then
derive `classification_name`. -/
def QC_geojson_clean (liteval : String → Option (Option String))
    (fs : List Feature) : Option (List Feature) :=
  let fs1 := fs.filter (fun f => f.geometry.kind ≠ GeomType.point)
  let fs2 := fs1.filter (fun f => f.classification.isSome)
  let fs3 := fs2.filter (fun f => f.geometry.kind ≠ GeomType.multiPolygon)
  deriveAll liteval fs3

/-- Models `generate_combinations`' use of `itertools.product` on three lists:
nested loops, rightmost factor fastest. -/
def itertoolsProduct3 {α β γ : Type} (l1 : List α) (l2 : List β) (l3 : List γ) :
    List (α × β × γ) :=
  l1.flatMap (fun a => l2.flatMap (fun b => l3.map (fun c => (a, b, c))))

/-- Python `range(1, num + 1)`. -/
def pyRange1 (num : Nat) : List Nat :=
  (List.range num).map (· + 1)

/-- Models `generate_combinations` (lines 37-43): the three asserts then the keys
`f"{a}_{b}_{i}"` over `itertools.product(list1, list2, range(1, num+1))`.
`none` models the AssertionError when `num` is not positive (the
list-of-strings asserts are enforced by the Lean types). -/
def generate_combinations (list1 list2 : List String) (num : Nat) :
    Option (List String) :=
  if num > 0 then
    some ((itertoolsProduct3 list1 list2 (pyRange1 num)).map
      (fun t => t.1 ++ "_" ++ t.2.1 ++ "_" ++ toString t.2.2))
  else none

/-- Models `create_default_samples_and_wells` (lines 52-57): assert
`len(samples) <= len(wells)` (`none` = AssertionError), then `zip` pairs the
i-th sample with the i-th well; the resulting dict is modelled as the
association list of those pairs (faithful to the dict when samples are
distinct, since `zip` stops at the shorter list). -/
def create_default_samples_and_wells (list_of_samples list_of_wells : List String) :
    Option (List (String × String)) :=
  if list_of_samples.length ≤ list_of_wells.length then
    some (list_of_samples.zip list_of_wells)
  else none

/-- Models `create_list_of_acceptable_wells` (lines 45-50):
`string.ascii_uppercase[2:14]` = rows C..N, `range(3, 22)` = columns 3..21,
concatenated as `str(row) + str(column)`. -/
def create_list_of_acceptable_wells : List String :=
  (["C", "D", "E", "F", "G", "H", "I", "J", "K", "L", "M", "N"]).flatMap
    (fun row => (List.range' 3 19).map (fun column => row ++ toString column))

/-- The `annotation_name` column of `load_and_QC_geojson_file` (line 153):
a copy of the `name` column; membership tests against its non-NaN values. -/
def annotationNames (fs : List Feature) : List String :=
  fs.filterMap (fun f => f.name)

/-- The calibration-point check loop (lines 164-168): the requested names
that are absent from `annotation_name`; each gets three `logger.error`
lines and the loop continues (no `st.stop`). -/
def calibErrors (fs : List Feature) (list_of_calibpoint_names : List String) :
    List String :=
  list_of_calibpoint_names.filter (fun nm => nm ∉ annotationNames fs)

/-- Models `df.loc[df['name'] == point_name, 'geometry'].values[0]` (lines 171-172):
the first geometry whose `name` equals the point name; `none` models the
uncaught IndexError when no row matches. -/
def firstGeomNamed (fs : List Feature) (nm : String) : Option Geom :=
  (fs.find? (fun f => f.name = some nm)).map (fun f => f.geometry)

/-- shapely `.x` / `.y` access (lines 171-172): defined only on Point
geometries (`none` models the AttributeError on any other kind). -/
def pointXY (g : Geom) : Option (ℚ × ℚ) :=
  if g.kind = GeomType.point then some (g.x, g.y) else none

/-- The `calib_np_array` construction (lines 170-173): look up each
calibration point by name and take its coordinates; `none` models the
uncaught exception that aborts the run when any lookup fails. -/
def calibArray (fs : List Feature) (list_of_calibpoint_names : List String) :
    Option (List (ℚ × ℚ)) :=
  list_of_calibpoint_names.mapM (fun nm => (firstGeomNamed fs nm).bind pointXY)

/-- Models `polygon_intersects_triangle` (lines 175-181): the shapely intersection
test for Polygon and LineString, `False` for every other geometry kind. -/
def polygon_intersects_triangle (g : Geom) : Bool :=
  match g.kind with
  | GeomType.polygon => g.hits
  | GeomType.lineString => g.hits
  | _ => false

/-- Models `df['intersects'].sum()` (line 186): how many rows intersect the
calibration triangle (Points and MultiPolygons contribute `False`). -/
def intersectCount (fs : List Feature) : Nat :=
  fs.countP (fun f => polygon_intersects_triangle f.geometry)

/-- Models `num_of_polygons_and_LineString` (line 184): the row count of the
features whose geometry kind is Polygon or LineString. -/
def numPolygonsAndLineStrings (fs : List Feature) : Nat :=
  fs.countP (fun f =>
    f.geometry.kind = GeomType.polygon ∨ f.geometry.kind = GeomType.lineString)

/-- Models `intersect_fraction` (line 186): the division
`df['intersects'].sum() / num_of_polygons_and_LineString` is performed
unconditionally; when the denominator is 0, numpy evaluates it to NaN (with
a runtime warning, no exception), modelled here as `none`. -/
def intersect_fraction (fs : List Feature) : Option ℚ :=
  if numPolygonsAndLineStrings fs = 0 then none
  else some ((intersectCount fs : ℚ) / (numPolygonsAndLineStrings fs : ℚ))

/-- The well-check loop of `load_and_QC_SamplesandWells` (lines 237-245),
folded over the mapping's values in order: `warning_limit` counts offending
wells; a per-well warning is written only while `warning_limit < 10` holds
after the increment; the final count decides the single summary warning
(`warning_limit >= 10`).  Returns (per-well warnings written, summary
written). -/
def checkWellsLoop (wells : List String) : List String × Bool :=
  let r := wells.foldl
    (fun (acc : Nat × List String) well =>
      if well ∈ create_list_of_acceptable_wells then acc
      else
        let n := acc.1 + 1
        (n, if n < 10 then acc.2 ++ [well] else acc.2))
    (0, [])
  (r.2, r.1 ≥ 10)

/-- The 384-well-plate DataFrame `df_wp384`: row index, column index, and
the cells written by `.at` (later writes are consed in front).  A cell never
written reads as the initial fill `''` when its labels are in the original
index, and as NaN (`none`) on a row/column added by `.at` enlargement. -/
structure DF384 where
  rows : List String
  cols : List String
  entries : List ((String × String) × String)
  deriving DecidableEq, Repr

/-- Models `[i for i in string.ascii_uppercase[:16]]` (line 61). -/
def rows_A_P : List String :=
  ["A", "B", "C", "D", "E", "F", "G", "H", "I", "J", "K", "L", "M", "N", "O", "P"]

/-- Models `[str(i) for i in range(1,25)]` (line 62). -/
def columns_1_24 : List String :=
  (List.range' 1 24).map (fun i => toString i)

/-- Models `pandas.DataFrame('', columns=columns_1_24, index=rows_A_P)` (line 63). -/
def initialDF384 : DF384 :=
  { rows := rows_A_P, cols := columns_1_24, entries := [] }

/-- Models `df_wp384.at[r, c] = v`: pandas `.at` assignment falls back to `.loc`
enlargement on a missing label, appending the new row/column label instead
of raising. -/
def DF384.setAt (d : DF384) (r c v : String) : DF384 :=
  { rows := if r ∈ d.rows then d.rows else d.rows ++ [r]
    cols := if c ∈ d.cols then d.cols else d.cols ++ [c]
    entries := ((r, c), v) :: d.entries }

/-- Read a cell: the last value written, else the initial fill `''` for an
original cell, else NaN (`none`) for a cell created by enlargement. -/
def DF384.get (d : DF384) (r c : String) : Option String :=
  match d.entries.find? (fun e => e.1.1 = r ∧ e.1.2 = c) with
  | some e => some e.2
  | none => if r ∈ rows_A_P ∧ c ∈ columns_1_24 then some "" else none

/-- Models `sample_placement_384wp` (lines 59-69): place each sample at
`(location[0], location[1:])` with no validation of the well label; `none`
models the IndexError `location[0]` raises on an empty label. -/
def sample_placement_384wp (samples_and_wells : List (String × String)) :
    Option DF384 :=
  samples_and_wells.foldlM
    (fun d p =>
      if p.2 = "" then none
      else some (d.setAt (p.2.take 1) (p.2.drop 1) p.1))
    initialDF384

/-- Python `str.strip()` whitespace set (the characters stripped from both
ends of the metadata name column, line 92). -/
def pyIsSpace (c : Char) : Bool :=
  c = ' ' ∨ c = '\t' ∨ c = '\n' ∨ c = '\r' ∨ c = Char.ofNat 11 ∨ c = Char.ofNat 12

/-- Python `str.strip()`: drop whitespace from both ends. -/
def pyStrip (s : String) : String :=
  String.mk (((s.data.dropWhile pyIsSpace).reverse.dropWhile pyIsSpace).reverse)

/-- Models `metadata[metadata_name_key].astype(str).str.strip()` (line 92): the
stripped values of the metadata name-key column (`astype(str)` is the
identity here because the column is modelled as strings). -/
def strippedMetadataNames (metadataNames : List String) : List String :=
  metadataNames.map pyStrip

/-- Models `check_ids` (lines 89-109): after stripping the metadata name column,
`True` iff the set of shape `classification_name` values is a subset of the
set of metadata names. -/
def check_ids (shapeNames metadataNames : List String) : Bool :=
  shapeNames.all (fun n => n ∈ strippedMetadataNames metadataNames)

/-- The `UnmatchedNames` failure payload: what `check_ids` logs on failure —
`shape_names_set - metadata_names_set` and the overlap
`shape_names_set & metadata_names_set` (lines 107-108), as lists with
set-membership semantics. -/
structure UnmatchedNames where
  unmatched : List String
  overlapping : List String
  deriving DecidableEq, Repr

/-- The join gate of `process_geojson_with_metadata` (line 116):
`assert check_ids(...)` — the AssertionError on a failed check is the
`UnmatchedNames` failure, carrying the two sets `check_ids` reported. -/
def process_join (shapeNames metadataNames : List String) :
    Except UnmatchedNames Unit :=
  if check_ids shapeNames metadataNames then Except.ok ()
  else
    Except.error
      { unmatched := shapeNames.filter (fun n => n ∉ strippedMetadataNames metadataNames)
        overlapping := shapeNames.filter (fun n => n ∈ strippedMetadataNames metadataNames) }

/-- Models `text.replace(c, "")` for a single-character pattern: remove every
occurrence of that character. -/
def removeAllChar (c : Char) (s : String) : String :=
  String.mk (s.data.filter (fun d => d ≠ c))

/-- The mapping-text preprocessing shared verbatim by
`load_and_QC_SamplesandWells` (lines 230-231) and `create_collection`
(lines 275-276): `.replace("\n", "").replace(" ", "")`. -/
def preprocessMapping (s : String) : String :=
  removeAllChar ' ' (removeAllChar '\n' s)

/-- Hexadecimal digit value, for `\xhh` escapes. -/
def hexVal (c : Char) : Option Nat :=
  if '0' ≤ c ∧ c ≤ '9' then some (c.toNat - '0'.toNat)
  else if 'a' ≤ c ∧ c ≤ 'f' then some (c.toNat - 'a'.toNat + 10)
  else if 'A' ≤ c ∧ c ≤ 'F' then some (c.toNat - 'A'.toNat + 10)
  else none

/-- Decode a Python string literal body (after its opening quote `q`) the
way `ast.literal_eval` does, up to the matching close quote: backslash
escapes `\n`, `\t`, `\r`, `\\`, `\'`, `\"`, `\xhh` are decoded; an unknown
escape keeps the backslash and the character (Python's behaviour); returns
the decoded content and the remaining input.  `none` = SyntaxError.  The
fuel argument (callers pass the input length) makes the recursion
structural; each step consumes at least one character, so the fuel never
runs out before the input does. -/
def pyStrBody (q : Char) : Nat → List Char → Option (List Char × List Char)
  | _, [] => none
  | 0, _ :: _ => none
  | fuel + 1, c :: cs =>
    if c = q then some ([], cs)
    else if c = '\\' then
      match cs with
      | [] => none
      | e :: cs2 =>
        if e = 'n' then (pyStrBody q fuel cs2).map (fun r => ('\n' :: r.1, r.2))
        else if e = 't' then (pyStrBody q fuel cs2).map (fun r => ('\t' :: r.1, r.2))
        else if e = 'r' then (pyStrBody q fuel cs2).map (fun r => ('\r' :: r.1, r.2))
        else if e = '\\' then (pyStrBody q fuel cs2).map (fun r => ('\\' :: r.1, r.2))
        else if e = '\'' then (pyStrBody q fuel cs2).map (fun r => ('\'' :: r.1, r.2))
        else if e = '"' then (pyStrBody q fuel cs2).map (fun r => ('"' :: r.1, r.2))
        else if e = 'x' then
          match cs2 with
          | h1 :: h2 :: cs3 =>
            match hexVal h1, hexVal h2 with
            | some a, some b =>
              (pyStrBody q fuel cs3).map (fun r => (Char.ofNat (16 * a + b) :: r.1, r.2))
            | _, _ => none
          | _ => none
        else (pyStrBody q fuel cs2).map (fun r => ('\\' :: e :: r.1, r.2))
    else (pyStrBody q fuel cs).map (fun r => (c :: r.1, r.2))

/-- Is this character a Python string-literal quote? -/
def isQuote (c : Char) : Bool :=
  c = '\'' ∨ c = '"'

/-- Parse the body of a `{str: str, ...}` dict literal after the opening
brace: entries of quoted strings separated by `,`, a trailing comma
allowed, terminated by the closing brace at end of input.  The input has
already had every space and newline removed, so no whitespace handling is
needed.  `none` = SyntaxError/ValueError from `ast.literal_eval` (which
also covers non-string-valued literals, out of this data model). -/
def parseDictBody (fuel : Nat) : List Char → Option (List (List Char × List Char))
  | [] => none
  | c :: cs =>
    if c = Char.ofNat 125 then (if cs = [] then some [] else none)
    else if isQuote c then
      match pyStrBody c cs.length cs with
      | none => none
      | some (k, r1) =>
        match r1 with
        | c1 :: r2 =>
          if c1 = ':' then
            match r2 with
            | q2 :: r3 =>
              if isQuote q2 then
                match pyStrBody q2 r3.length r3 with
                | none => none
                | some (v, r4) =>
                  match r4 with
                  | c4 :: r5 =>
                    if c4 = ',' then
                      match fuel with
                      | 0 => none
                      | fuel' + 1 =>
                        (parseDictBody fuel' r5).map (fun rest => (k, v) :: rest)
                    else if c4 = Char.ofNat 125 ∧ r5 = [] then some [(k, v)]
                    else none
                  | [] => none
              else none
            | [] => none
          else none
        | [] => none
    else none

/-- Models `ast.literal_eval` applied to the preprocessed mapping text (lines 232
and 277), restricted to the str-to-str dict literals of the sample/well
data model; the resulting dict is modelled as the association list of its
entries in source order.  The fuel bound (the input length) only caps the
number of parsed entries and never binds, since each entry consumes input. -/
def literal_eval_mapping (s : String) : Option (List (String × String)) :=
  match s.data with
  | c :: cs =>
    if c = Char.ofNat 123 then
      (parseDictBody cs.length cs).map
        (fun l => l.map (fun kv => (String.mk kv.1, String.mk kv.2)))
    else none
  | [] => none

/-- The full mapping-ingestion step shared by `load_and_QC_SamplesandWells`
and `create_collection`: preprocess then `ast.literal_eval`. -/
def load_mapping (samples_and_wells_input : String) :
    Option (List (String × String)) :=
  literal_eval_mapping (preprocessMapping samples_and_wells_input)

/-! ### Helper lemmas -/

/-- The well-check fold, generalized over the accumulator: the count grows
by the number of offending wells, and the warning list is extended by the
offenders up to the 9-warning budget remaining. -/
theorem checkWells_fold_general (wells : List String) :
    ∀ (k : Nat) (ws : List String),
      (wells.foldl
        (fun (acc : Nat × List String) well =>
          if well ∈ create_list_of_acceptable_wells then acc
          else
            let n := acc.1 + 1
            (n, if n < 10 then acc.2 ++ [well] else acc.2))
        (k, ws)) =
      (k + (wells.filter (fun w => w ∉ create_list_of_acceptable_wells)).length,
       ws ++ (wells.filter (fun w => w ∉ create_list_of_acceptable_wells)).take (9 - k)) := by
  induction wells with
  | nil => intro k ws; simp
  | cons w rest ih =>
    intro k ws
    rw [List.foldl_cons]
    by_cases hw : w ∈ create_list_of_acceptable_wells
    · rw [if_pos hw, ih, List.filter_cons_of_neg (by simpa using hw)]
    · rw [if_neg hw]
      show List.foldl _ (k + 1, if k + 1 < 10 then ws ++ [w] else ws) rest = _
      rw [ih, List.filter_cons_of_pos (by simpa using hw)]
      simp only [Prod.mk.injEq]
      refine ⟨by simp; omega, ?_⟩
      by_cases hk : k + 1 < 10
      · rw [if_pos hk]
        have h9 : 9 - k = (9 - (k + 1)) + 1 := by omega
        rw [h9, List.take_succ_cons]
        simp
      · rw [if_neg hk]
        have h9a : 9 - k = 0 := by omega
        have h9b : 9 - (k + 1) = 0 := by omega
        rw [h9a, h9b]
        simp

/-- The per-well warnings are exactly the first 9 offending wells, and the
summary fires exactly when at least 10 wells offend. -/
theorem checkWellsLoop_spec (wells : List String) :
    (checkWellsLoop wells).1 =
      (wells.filter (fun w => w ∉ create_list_of_acceptable_wells)).take 9 ∧
    ((checkWellsLoop wells).2 = true ↔
      10 ≤ (wells.filter (fun w => w ∉ create_list_of_acceptable_wells)).length) := by
  unfold checkWellsLoop
  rw [checkWells_fold_general wells 0 []]
  simp [ge_iff_le]

/-! ### Claim theorems -/

set_option maxRecDepth 8192 in
/-- C4 (counterexample): with ten offending wells, the per-well warnings
stop at the ninth — the tenth offending well "X10" receives no per-well
warning, refuting "per-well warnings are emitted up to and including the
10th offending well". -/
theorem claim_C4_counterexample :
    (([("s1", "X1"), ("s2", "X2"), ("s3", "X3"), ("s4", "X4"), ("s5", "X5"),
       ("s6", "X6"), ("s7", "X7"), ("s8", "X8"), ("s9", "X9"),
       ("s10", "X10")].map Prod.snd).all
        (fun w => w ∉ create_list_of_acceptable_wells)) = true ∧
    (checkWellsLoop ([("s1", "X1"), ("s2", "X2"), ("s3", "X3"), ("s4", "X4"),
       ("s5", "X5"), ("s6", "X6"), ("s7", "X7"), ("s8", "X8"), ("s9", "X9"),
       ("s10", "X10")].map Prod.snd)).1.length = 9 ∧
    ("X10" ∈ (checkWellsLoop ([("s1", "X1"), ("s2", "X2"), ("s3", "X3"),
       ("s4", "X4"), ("s5", "X5"), ("s6", "X6"), ("s7", "X7"), ("s8", "X8"),
       ("s9", "X9"), ("s10", "X10")].map Prod.snd)).1) = False := by
  decide

set_option maxRecDepth 8192 in
/-- C4 (amended): one per-well warning for each of the first NINE offending
wells, suppression from the tenth onward, and exactly one summary warning
when at least ten wells offend; the acceptable set has 228 wells; the
mapping a→C3, b→ZZ99 yields exactly the one warning for ZZ99 and no
summary (and no fatal error — the loop returns normally). -/
theorem claim_C4_well_warning_limit :
    (∀ samples_and_wells : List (String × String),
      (checkWellsLoop (samples_and_wells.map Prod.snd)).1 =
        ((samples_and_wells.map Prod.snd).filter
          (fun w => w ∉ create_list_of_acceptable_wells)).take 9 ∧
      ((checkWellsLoop (samples_and_wells.map Prod.snd)).2 = true ↔
        10 ≤ ((samples_and_wells.map Prod.snd).filter
          (fun w => w ∉ create_list_of_acceptable_wells)).length)) ∧
    create_list_of_acceptable_wells.length = 228 ∧
    checkWellsLoop ([("a", "C3"), ("b", "ZZ99")].map Prod.snd) = (["ZZ99"], false) := by
  refine ⟨fun saw => checkWellsLoop_spec (saw.map Prod.snd), by decide, by decide⟩

set_option maxRecDepth 8192 in
/-- C5: for the mapping a→C3, b→D10, `sample_placement_384wp` returns a
16-row (A-P) by 24-column (1-24) grid with "a" at (C,3), "b" at (D,10),
and the empty string at the remaining 382 of the 384 cells. -/
theorem claim_C5_plate_layout_example :
    ∃ g, sample_placement_384wp [("a", "C3"), ("b", "D10")] = some g ∧
      g.rows = rows_A_P ∧ g.cols = columns_1_24 ∧
      rows_A_P.length = 16 ∧ columns_1_24.length = 24 ∧
      g.get "C" "3" = some "a" ∧ g.get "D" "10" = some "b" ∧
      (rows_A_P.flatMap (fun r => columns_1_24.map (fun c => (r, c)))).length = 384 ∧
      ((rows_A_P.flatMap (fun r => columns_1_24.map (fun c => (r, c)))).filter
        (fun rc => g.get rc.1 rc.2 = some "")).length = 382 :=
  ⟨{ rows := rows_A_P, cols := columns_1_24,
     entries := [(("D", "10"), "b"), (("C", "3"), "a")] }, by decide⟩

/-- C8: `generate_combinations` yields the names a_b_i in cartesian-product
order — list1 slowest, then list2, then the replicate index 1..num — for
every positive num (and an AssertionError otherwise); in particular
(["A","B"], ["1"], 2) gives exactly ["A_1_1","A_1_2","B_1_1","B_1_2"]. -/
theorem claim_C8_generate_combinations :
    (∀ (list1 list2 : List String) (num : Nat),
      generate_combinations list1 list2 num =
        if 0 < num then
          some (list1.flatMap (fun a => list2.flatMap (fun b =>
            (pyRange1 num).map (fun i => a ++ "_" ++ b ++ "_" ++ toString i))))
        else none) ∧
    generate_combinations ["A", "B"] ["1"] 2 =
      some ["A_1_1", "A_1_2", "B_1_1", "B_1_2"] := by
  constructor
  · intro l1 l2 num
    unfold generate_combinations itertoolsProduct3
    by_cases h : 0 < num
    · rw [if_pos h, if_pos h]
      simp [List.map_flatMap, List.map_map, Function.comp_def]
    · rw [if_neg h, if_neg h]
  · decide

/-- C10: `create_default_samples_and_wells` requires no more samples than
wells (AssertionError otherwise) and zips the i-th sample with the i-th
well, so with duplicate-free inputs every sample gets a well and distinct
samples get distinct wells. -/
theorem claim_C10_default_samples_and_wells
    (samples wells : List String)
    (_hs : samples.Nodup) (hw : wells.Nodup)
    (hlen : samples.length ≤ wells.length) :
    ∃ m, create_default_samples_and_wells samples wells = some m ∧
      (∀ i : Nat, ∀ hi : i < samples.length, ∀ hm : i < m.length,
        m[i] = (samples[i], wells.get ⟨i, Nat.lt_of_lt_of_le hi hlen⟩)) ∧
      (∀ s ∈ samples, ∃ w, (s, w) ∈ m) ∧
      (∀ s1 w1 s2 w2, (s1, w1) ∈ m → (s2, w2) ∈ m → s1 ≠ s2 → w1 ≠ w2) := by
  refine ⟨samples.zip wells, ?_, ?_, ?_, ?_⟩
  · unfold create_default_samples_and_wells
    rw [if_pos hlen]
  · intro i hi hm
    simp [List.getElem_zip]
  · intro s hs'
    obtain ⟨i, hi, rfl⟩ := List.mem_iff_getElem.mp hs'
    have hiw : i < wells.length := Nat.lt_of_lt_of_le hi hlen
    refine ⟨wells[i], List.mem_iff_getElem.mpr ⟨i, ?_, ?_⟩⟩
    · simp [List.length_zip]; omega
    · simp [List.getElem_zip]
  · intro s1 w1 s2 w2 h1 h2 hne hww
    apply hne
    obtain ⟨i, hi, hzi⟩ := List.mem_iff_getElem.mp h1
    obtain ⟨j, hj, hzj⟩ := List.mem_iff_getElem.mp h2
    rw [List.getElem_zip] at hzi hzj
    have hiw : i < wells.length := by
      have := hi; simp [List.length_zip] at this; omega
    have hjw : j < wells.length := by
      have := hj; simp [List.length_zip] at this; omega
    have his : i < samples.length := by
      have := hi; simp [List.length_zip] at this; omega
    have hjs : j < samples.length := by
      have := hj; simp [List.length_zip] at this; omega
    have hwe : wells[i] = wells[j] := by
      have e1 : w1 = wells[i] := by
        have := congrArg Prod.snd hzi; simpa using this.symm
      have e2 : w2 = wells[j] := by
        have := congrArg Prod.snd hzj; simpa using this.symm
      rw [← e1, ← e2, hww]
    have hij : i = j := (List.Nodup.getElem_inj_iff hw).mp hwe
    subst hij
    have e1 : s1 = samples[i] := by
      have := congrArg Prod.fst hzi; simpa using this.symm
    have e2 : s2 = samples[i] := by
      have := congrArg Prod.fst hzj; simpa using this.symm
    rw [e1, e2]

/-- C10 witness: the theorem applied to the concrete duplicate-free inputs
(["a","b"], ["C3","C5"]). -/
theorem claim_C10_witness :
    ∃ m, create_default_samples_and_wells ["a", "b"] ["C3", "C5"] = some m ∧
      (∀ i : Nat, ∀ hi : i < (["a", "b"] : List String).length, ∀ hm : i < m.length,
        m[i] = ((["a", "b"] : List String)[i],
          (["C3", "C5"] : List String).get ⟨i, Nat.lt_of_lt_of_le hi (by decide)⟩)) ∧
      (∀ s ∈ (["a", "b"] : List String), ∃ w, (s, w) ∈ m) ∧
      (∀ s1 w1 s2 w2, (s1, w1) ∈ m → (s2, w2) ∈ m → s1 ≠ s2 → w1 ≠ w2) :=
  claim_C10_default_samples_and_wells ["a", "b"] ["C3", "C5"]
    (by decide) (by decide) (by decide)

/-- Pointwise: the intersect flag is the conjunction of being a Polygon or
LineString with the shapely hit — Points (and MultiPolygons) always read
false. -/
theorem polygon_intersects_triangle_eq (g : Geom) :
    polygon_intersects_triangle g =
      ((g.kind = GeomType.polygon ∨ g.kind = GeomType.lineString) ∧ g.hits = true : Bool) := by
  obtain ⟨k, x, y, h⟩ := g
  cases k <;> simp [polygon_intersects_triangle]

/-- C2 (counterexample): on an input whose only feature is a Point there
are zero Polygon/LineString features, yet line 186 still performs the
division — numpy evaluates `0/0` to NaN (modelled `none`), so the fraction
is neither avoided nor a number in [0,1]. -/
theorem claim_C2_counterexample :
    numPolygonsAndLineStrings
      [{ geometry := { kind := GeomType.point } : Feature }] = 0 ∧
    intersect_fraction
      [{ geometry := { kind := GeomType.point } : Feature }] = none := by
  constructor <;> rfl

/-- C2 (amended): the numerator counts exactly the Polygon/LineString
features that intersect the calibration triangle (Points excluded from
numerator and denominator); whenever at least one Polygon/LineString
feature exists the fraction equals numerator/denominator and lies in
[0,1]; with zero such features the unguarded division yields NaN (`none`)
instead of being avoided. -/
theorem claim_C2_intersect_fraction (fs : List Feature)
    (hpos : 0 < numPolygonsAndLineStrings fs) :
    intersectCount fs =
      fs.countP (fun f =>
        ((f.geometry.kind = GeomType.polygon ∨ f.geometry.kind = GeomType.lineString) ∧
          f.geometry.hits = true : Bool)) ∧
    ∃ q : ℚ, intersect_fraction fs = some q ∧
      q = (intersectCount fs : ℚ) / (numPolygonsAndLineStrings fs : ℚ) ∧
      0 ≤ q ∧ q ≤ 1 := by
  have hcount : intersectCount fs =
      fs.countP (fun f =>
        ((f.geometry.kind = GeomType.polygon ∨ f.geometry.kind = GeomType.lineString) ∧
          f.geometry.hits = true : Bool)) := by
    unfold intersectCount
    congr 1
    funext f
    exact polygon_intersects_triangle_eq f.geometry
  refine ⟨hcount, (intersectCount fs : ℚ) / (numPolygonsAndLineStrings fs : ℚ), ?_, rfl, ?_, ?_⟩
  · unfold intersect_fraction
    rw [if_neg (by omega)]
  · positivity
  · rw [div_le_one (by exact_mod_cast hpos)]
    have hle : intersectCount fs ≤ numPolygonsAndLineStrings fs := by
      unfold intersectCount numPolygonsAndLineStrings
      apply List.countP_mono_left
      intro f _ hf
      rw [polygon_intersects_triangle_eq] at hf
      simp only [decide_eq_true_eq] at hf
      simp [hf.1]
    exact_mod_cast hle

/-- C2 witness: the amended theorem applied to a concrete one-polygon,
one-point input (the polygon intersecting the triangle). -/
theorem claim_C2_witness :
    intersectCount
      [{ geometry := { kind := GeomType.polygon, hits := true } : Feature },
       { geometry := { kind := GeomType.point } : Feature }] =
      List.countP (fun f =>
        ((f.geometry.kind = GeomType.polygon ∨ f.geometry.kind = GeomType.lineString) ∧
          f.geometry.hits = true : Bool))
        [{ geometry := { kind := GeomType.polygon, hits := true } : Feature },
         { geometry := { kind := GeomType.point } : Feature }] ∧
    ∃ q : ℚ,
      intersect_fraction
        [{ geometry := { kind := GeomType.polygon, hits := true } : Feature },
         { geometry := { kind := GeomType.point } : Feature }] = some q ∧
      q = (intersectCount
        [{ geometry := { kind := GeomType.polygon, hits := true } : Feature },
         { geometry := { kind := GeomType.point } : Feature }] : ℚ) /
        (numPolygonsAndLineStrings
        [{ geometry := { kind := GeomType.polygon, hits := true } : Feature },
         { geometry := { kind := GeomType.point } : Feature }] : ℚ) ∧
      0 ≤ q ∧ q ≤ 1 :=
  claim_C2_intersect_fraction
    [{ geometry := { kind := GeomType.polygon, hits := true } : Feature },
     { geometry := { kind := GeomType.point } : Feature }] (by decide)

/-- C3 (counterexample): the malformed well label "ZZ99" (leading letter
'Z' outside A-P) does not fail: `sample_placement_384wp` places "b" at row
"Z", column "Z99", and pandas `.at` enlargement grows the grid to 17 rows
and 25 columns — no `InvalidWellLabel` error exists in the code. -/
theorem claim_C3_counterexample :
    ∃ g, sample_placement_384wp [("b", "ZZ99")] = some g ∧
      g.get "Z" "Z99" = some "b" ∧
      g.rows.length = 17 ∧ g.cols.length = 25 ∧
      "Z" ∈ g.rows ∧ "Z99" ∈ g.cols :=
  ⟨{ rows := rows_A_P ++ ["Z"], cols := columns_1_24 ++ ["Z99"],
     entries := [(("Z", "Z99"), "b")] }, by decide⟩

/-- C3 (amended): `sample_placement_384wp` performs no well-label
validation: every sample with a nonempty label is placed at the cell keyed
by (first character, remaining characters) — labels outside rows A-P /
columns 1-24 silently enlarge the grid instead of raising — and only an
empty label fails (IndexError on `location[0]`). -/
theorem claim_C3_no_validation (s w : String) (hw : w ≠ "") :
    (∃ g, sample_placement_384wp [(s, w)] = some g ∧
      g.get (w.take 1) (w.drop 1) = some s) ∧
    sample_placement_384wp [(s, "")] = none := by
  constructor
  · refine ⟨initialDF384.setAt (w.take 1) (w.drop 1) s, ?_, ?_⟩
    · simp [sample_placement_384wp, List.foldlM, hw]
    · unfold DF384.get DF384.setAt
      rw [List.find?_cons_of_pos _ (by simp)]
  · simp [sample_placement_384wp, List.foldlM]

/-- C3 witness: the amended theorem at the concrete malformed label
("b", "ZZ99"). -/
theorem claim_C3_witness :
    (∃ g, sample_placement_384wp [("b", "ZZ99")] = some g ∧
      g.get ("ZZ99".take 1) ("ZZ99".drop 1) = some "b") ∧
    sample_placement_384wp [("b", "")] = none :=
  claim_C3_no_validation "b" "ZZ99" (by decide)

/-- C6: the metadata join gate fails (AssertionError carrying what
`check_ids` logged — the spec's `UnmatchedNames`) exactly when the shape
`classification_name` values are not a subset of the whitespace-stripped
metadata name column; the failure names the unmatched set and the
overlapping set; when the subset relation holds the join proceeds. -/
theorem claim_C6_unmatched_names (shapeNames metadataNames : List String) :
    (process_join shapeNames metadataNames = Except.ok () ↔
      ∀ n ∈ shapeNames, n ∈ strippedMetadataNames metadataNames) ∧
    ((∃ e, process_join shapeNames metadataNames = Except.error e) ↔
      ¬ ∀ n ∈ shapeNames, n ∈ strippedMetadataNames metadataNames) ∧
    (∀ e, process_join shapeNames metadataNames = Except.error e →
      (∀ n, n ∈ e.unmatched ↔
        n ∈ shapeNames ∧ n ∉ strippedMetadataNames metadataNames) ∧
      (∀ n, n ∈ e.overlapping ↔
        n ∈ shapeNames ∧ n ∈ strippedMetadataNames metadataNames)) := by
  by_cases hb : check_ids shapeNames metadataNames
  · have hall : ∀ n ∈ shapeNames, n ∈ strippedMetadataNames metadataNames := by
      simpa [check_ids] using hb
    unfold process_join
    rw [if_pos hb]
    refine ⟨iff_of_true rfl hall, iff_of_false (by simp) (not_not_intro hall), ?_⟩
    intro e he
    cases he
  · have hall : ¬ ∀ n ∈ shapeNames, n ∈ strippedMetadataNames metadataNames := by
      simpa [check_ids] using hb
    unfold process_join
    rw [if_neg hb]
    refine ⟨iff_of_false (by simp) hall, iff_of_true ⟨_, rfl⟩ hall, ?_⟩
    intro e he
    injection he with he'
    subst he'
    constructor
    · intro n
      simp [List.mem_filter]
    · intro n
      simp [List.mem_filter]

/-- C6 witness: with shapes named x,y,z and metadata covering only x,y the
join fails, naming exactly z as unmatched (the theorem instantiated at the
spec's own example). -/
theorem claim_C6_witness :
    ("z" ∈ (UnmatchedNames.mk ["z"] ["x", "y"]).unmatched ↔
      "z" ∈ ["x", "y", "z"] ∧ "z" ∉ strippedMetadataNames ["x", "y"]) ∧
    ("x" ∈ (UnmatchedNames.mk ["z"] ["x", "y"]).overlapping ↔
      "x" ∈ ["x", "y", "z"] ∧ "x" ∈ strippedMetadataNames ["x", "y"]) :=
  ⟨(((claim_C6_unmatched_names ["x", "y", "z"] ["x", "y"]).2.2
      (UnmatchedNames.mk ["z"] ["x", "y"]) (by rfl)).1 "z"),
   (((claim_C6_unmatched_names ["x", "y", "z"] ["x", "y"]).2.2
      (UnmatchedNames.mk ["z"] ["x", "y"]) (by rfl)).2 "x")⟩

/-- Models `mapM` over `Option` fails as soon as any element fails. -/
theorem mapM_eq_none_of_mem {α β : Type} (f : α → Option β) :
    ∀ (l : List α) (a : α), a ∈ l → f a = none → l.mapM f = none := by
  intro l a ha hfa
  rw [← List.mapM'_eq_mapM]
  induction l with
  | nil => cases ha
  | cons x xs ih =>
    rcases List.mem_cons.mp ha with h | h
    · subst h
      simp [List.mapM', hfa]
    · cases hfx : f x with
      | none => simp [List.mapM', hfx]
      | some v => simp [List.mapM', hfx, ih h]

/-- C1 (counterexample): with calibration points named calib1, calib3 but
no calib2, the check loop logs calib2 (and only calib2) and continues —
but the `calib_np_array` construction then hits an uncaught IndexError
(`values[0]` on an empty selection), so the run aborts before building the
calibration triangle, instead of proceeding to the cleaning steps. -/
theorem claim_C1_counterexample :
    calibErrors
      [{ geometry := { kind := GeomType.point }, name := some "calib1" },
       { geometry := { kind := GeomType.point }, name := some "calib3" },
       { geometry := { kind := GeomType.polygon }, name := some "roi" }]
      ["calib1", "calib2", "calib3"] = ["calib2"] ∧
    calibArray
      [{ geometry := { kind := GeomType.point }, name := some "calib1" },
       { geometry := { kind := GeomType.point }, name := some "calib3" },
       { geometry := { kind := GeomType.polygon }, name := some "roi" }]
      ["calib1", "calib2", "calib3"] = none := by
  constructor <;> rfl

/-- C1 (amended): when a requested calibration-point name is absent from
the feature names, the check loop does log it and continue (soft-fail of
the loop itself), but the subsequent calibration-array construction always
fails (uncaught IndexError), so the run does not proceed past it. -/
theorem claim_C1_calib_softfail (fs : List Feature)
    (names : List String) (nm : String)
    (hmem : nm ∈ names) (habs : nm ∉ annotationNames fs) :
    nm ∈ calibErrors fs names ∧ calibArray fs names = none := by
  constructor
  · unfold calibErrors
    rw [List.mem_filter]
    exact ⟨hmem, by simpa using habs⟩
  · have hfind : fs.find? (fun f => f.name = some nm) = none := by
      rw [List.find?_eq_none]
      intro f hf
      simp only [decide_eq_true_eq]
      intro hname
      exact habs (by
        unfold annotationNames
        exact List.mem_filterMap.mpr ⟨f, hf, by simp [hname]⟩)
    unfold calibArray
    apply mapM_eq_none_of_mem _ names nm hmem
    unfold firstGeomNamed
    rw [hfind]
    rfl

/-- C1 witness: the amended theorem at the concrete input of the
counterexample (calib2 requested but absent). -/
theorem claim_C1_witness :
    "calib2" ∈ calibErrors
      [{ geometry := { kind := GeomType.point }, name := some "calib1" },
       { geometry := { kind := GeomType.point }, name := some "calib3" },
       { geometry := { kind := GeomType.polygon }, name := some "roi" }]
      ["calib1", "calib2", "calib3"] ∧
    calibArray
      [{ geometry := { kind := GeomType.point }, name := some "calib1" },
       { geometry := { kind := GeomType.point }, name := some "calib3" },
       { geometry := { kind := GeomType.polygon }, name := some "roi" }]
      ["calib1", "calib2", "calib3"] = none :=
  claim_C1_calib_softfail _ _ "calib2" (by decide) (by decide)

/-- Deriving `classification_name` changes no other column: geometry and
classification survive pointwise. -/
theorem deriveAll_core (lv : String → Option (Option String)) :
    ∀ (l ys : List Feature), deriveAll lv l = some ys →
      ys.map (fun f => (f.geometry, f.classification)) =
        l.map (fun f => (f.geometry, f.classification)) := by
  intro l
  induction l with
  | nil =>
    intro ys h
    simp only [deriveAll, Option.some.injEq] at h
    subst h
    rfl
  | cons f fs ih =>
    intro ys h
    cases hc : f.classification with
    | none => simp [deriveAll, hc] at h
    | some c =>
      cases hd : deriveClassName lv c with
      | none => simp [deriveAll, hc, hd] at h
      | some nm =>
        cases hrest : deriveAll lv fs with
        | none => simp [deriveAll, hc, hd, hrest] at h
        | some rest =>
          simp only [deriveAll, hc, hd, hrest, Option.map_some', Option.some.injEq] at h
          subst h
          simp [ih rest hrest, hc]

/-- The derive step is idempotent: on its own output it recomputes the
same `classification_name` for every row. -/
theorem deriveAll_idem (lv : String → Option (Option String)) :
    ∀ (l ys : List Feature), deriveAll lv l = some ys →
      deriveAll lv ys = some ys := by
  intro l
  induction l with
  | nil =>
    intro ys h
    simp only [deriveAll, Option.some.injEq] at h
    subst h
    rfl
  | cons f fs ih =>
    intro ys h
    cases hc : f.classification with
    | none => simp [deriveAll, hc] at h
    | some c =>
      cases hd : deriveClassName lv c with
      | none => simp [deriveAll, hc, hd] at h
      | some nm =>
        cases hrest : deriveAll lv fs with
        | none => simp [deriveAll, hc, hd, hrest] at h
        | some rest =>
          simp only [deriveAll, hc, hd, hrest, Option.map_some', Option.some.injEq] at h
          subst h
          simp [deriveAll, hd, ih rest hrest]

/-- C7: cleaning is idempotent — applied to its own output (which has no
Points, no null classifications, no MultiPolygons, and an already-derived
`classification_name`), the cleaner drops nothing and returns the same
feature list. -/
theorem claim_C7_clean_idempotent (lv : String → Option (Option String))
    (fs ys : List Feature) (h : QC_geojson_clean lv fs = some ys) :
    QC_geojson_clean lv ys = some ys := by
  simp only [QC_geojson_clean] at h ⊢
  have hcore := deriveAll_core lv _ ys h
  have hpred : ∀ f ∈ ys,
      f.geometry.kind ≠ GeomType.point ∧
      f.classification.isSome = true ∧
      f.geometry.kind ≠ GeomType.multiPolygon := by
    intro f hf
    have hmem : (f.geometry, f.classification) ∈
        ys.map (fun f => (f.geometry, f.classification)) :=
      List.mem_map_of_mem _ hf
    rw [hcore] at hmem
    obtain ⟨g, hg, hge⟩ := List.mem_map.mp hmem
    have hge1 : g.geometry = f.geometry := congrArg Prod.fst hge
    have hge2 : g.classification = f.classification := congrArg Prod.snd hge
    have h3 := List.mem_filter.mp hg
    have h2 := List.mem_filter.mp h3.1
    have h1 := List.mem_filter.mp h2.1
    refine ⟨?_, ?_, ?_⟩
    · rw [← hge1]
      simpa using h1.2
    · rw [← hge2]
      simpa using h2.2
    · rw [← hge1]
      simpa using h3.2
  have e1 : ys.filter (fun f => f.geometry.kind ≠ GeomType.point) = ys :=
    List.filter_eq_self.mpr (fun f hf => by simpa using (hpred f hf).1)
  have e2 : ys.filter (fun f => f.classification.isSome) = ys :=
    List.filter_eq_self.mpr (fun f hf => by simpa using (hpred f hf).2.1)
  have e3 : ys.filter (fun f => f.geometry.kind ≠ GeomType.multiPolygon) = ys :=
    List.filter_eq_self.mpr (fun f hf => by simpa using (hpred f hf).2.2)
  rw [e1, e2, e3]
  exact deriveAll_idem lv _ ys h

/-- C7 witness: the cleaner applied to a two-feature file (one classified
polygon, one calibration point) and then again to its own output. -/
theorem claim_C7_witness :
    QC_geojson_clean (fun s => some (some s))
      [{ geometry := { kind := GeomType.polygon },
         name := some "shape1",
         classification := some (ClassVal.str "tumor") },
       { geometry := { kind := GeomType.point }, name := some "calib1" }] =
      some [{ geometry := { kind := GeomType.polygon },
              name := some "shape1",
              classification := some (ClassVal.str "tumor"),
              classification_name := some "tumor" }] ∧
    QC_geojson_clean (fun s => some (some s))
      [{ geometry := { kind := GeomType.polygon },
         name := some "shape1",
         classification := some (ClassVal.str "tumor"),
         classification_name := some "tumor" }] =
      some [{ geometry := { kind := GeomType.polygon },
              name := some "shape1",
              classification := some (ClassVal.str "tumor"),
              classification_name := some "tumor" }] :=
  ⟨rfl,
   claim_C7_clean_idempotent (fun s => some (some s))
     [{ geometry := { kind := GeomType.polygon },
        name := some "shape1",
        classification := some (ClassVal.str "tumor") },
      { geometry := { kind := GeomType.point }, name := some "calib1" }]
     [{ geometry := { kind := GeomType.polygon },
        name := some "shape1",
        classification := some (ClassVal.str "tumor"),
        classification_name := some "tumor" }]
     rfl⟩

/-- In an escape-free (backslash-free) input, the string-literal decoder
only copies input characters: the decoded content and the rest of the
input are both drawn from the input's characters, and the rest is
strictly shorter. -/
theorem pyStrBody_subset (q : Char) :
    ∀ (fuel : Nat) (cs k r : List Char),
      pyStrBody q fuel cs = some (k, r) → '\\' ∉ cs →
      (∀ c ∈ k, c ∈ cs) ∧ (∀ c ∈ r, c ∈ cs) ∧ r.length < cs.length := by
  intro fuel
  induction fuel with
  | zero =>
    intro cs k r h hb
    cases cs with
    | nil => simp [pyStrBody] at h
    | cons c cs' => simp [pyStrBody] at h
  | succ n ih =>
    intro cs k r h hb
    cases cs with
    | nil => simp [pyStrBody] at h
    | cons c cs' =>
      have hcb : ¬ c = '\\' := fun he => hb (by simp [he])
      simp only [pyStrBody] at h
      by_cases hcq : c = q
      · rw [if_pos hcq] at h
        injection h with h'
        have hk : k = [] := (Prod.mk.injEq _ _ _ _ |>.mp h'.symm).1
        have hr : r = cs' := (Prod.mk.injEq _ _ _ _ |>.mp h'.symm).2
        subst hk
        subst hr
        refine ⟨by simp, fun d hd => by simp [hd], by simp⟩
      · rw [if_neg hcq, if_neg hcb] at h
        cases hrec : pyStrBody q n cs' with
        | none => rw [hrec] at h; cases h
        | some pr =>
          obtain ⟨k', r'⟩ := pr
          rw [hrec] at h
          simp only [Option.map_some', Option.some.injEq] at h
          have hk : k = c :: k' := (Prod.mk.injEq _ _ _ _ |>.mp h.symm).1
          have hr : r = r' := (Prod.mk.injEq _ _ _ _ |>.mp h.symm).2
          subst hk
          subst hr
          have hb' : '\\' ∉ cs' := fun hx => hb (List.mem_cons_of_mem _ hx)
          obtain ⟨ihk, ihr, ihl⟩ := ih cs' k' r hrec hb'
          refine ⟨?_, ?_, ?_⟩
          · intro d hd
            rcases List.mem_cons.mp hd with h1 | h1
            · simp [h1]
            · exact List.mem_cons_of_mem _ (ihk d h1)
          · intro d hd
            exact List.mem_cons_of_mem _ (ihr d hd)
          · simp
            omega

/-- In an escape-free input, every parsed key and value is built only from
characters of the input. -/
theorem parseDictBody_subset :
    ∀ (fuel : Nat) (cs : List Char) (m : List (List Char × List Char)),
      parseDictBody fuel cs = some m → '\\' ∉ cs →
      ∀ kv ∈ m, (∀ c ∈ kv.1, c ∈ cs) ∧ (∀ c ∈ kv.2, c ∈ cs) := by
  intro fuel
  induction fuel with
  | zero =>
    intro cs m h hb
    cases cs with
    | nil => rw [parseDictBody.eq_def] at h; cases h
    | cons c cs' =>
      rw [parseDictBody.eq_def] at h
      dsimp only at h
      by_cases hbrace : c = Char.ofNat 125
      · rw [if_pos hbrace] at h
        by_cases hnil : cs' = []
        · rw [if_pos hnil] at h
          injection h with h'
          subst h'
          intro kv hkv
          cases hkv
        · rw [if_neg hnil] at h
          cases h
      · rw [if_neg hbrace] at h
        by_cases hq : isQuote c = true
        · rw [if_pos hq] at h
          cases hk1 : pyStrBody c cs'.length cs' with
          | none => rw [hk1] at h; cases h
          | some pr1 =>
            obtain ⟨k, r1⟩ := pr1
            rw [hk1] at h
            have hbt : '\\' ∉ cs' := fun hx => hb (List.mem_cons_of_mem _ hx)
            obtain ⟨hkcs, hr1cs, _⟩ :=
              pyStrBody_subset c cs'.length cs' k r1 hk1 hbt
            cases r1 with
            | nil => cases h
            | cons c1 r2 =>
              dsimp only at h
              by_cases hc1 : c1 = ':'
              · rw [if_pos hc1] at h
                cases r2 with
                | nil => cases h
                | cons q2 r3 =>
                  dsimp only at h
                  by_cases hq2 : isQuote q2 = true
                  · rw [if_pos hq2] at h
                    have hr3cs : ∀ d ∈ r3, d ∈ cs' :=
                      fun d hd => hr1cs d (by simp [hd])
                    have hb3 : '\\' ∉ r3 := fun hx => hbt (hr3cs _ hx)
                    cases hk2 : pyStrBody q2 r3.length r3 with
                    | none => rw [hk2] at h; cases h
                    | some pr2 =>
                      obtain ⟨v, r4⟩ := pr2
                      rw [hk2] at h
                      obtain ⟨hvr3, hr4r3, _⟩ :=
                        pyStrBody_subset q2 r3.length r3 v r4 hk2 hb3
                      cases r4 with
                      | nil => cases h
                      | cons c4 r5 =>
                        dsimp only at h
                        by_cases hc4 : c4 = ','
                        · rw [if_pos hc4] at h
                          cases h
                        · rw [if_neg hc4] at h
                          by_cases hend : c4 = Char.ofNat 125 ∧ r5 = []
                          · rw [if_pos hend] at h
                            injection h with h'
                            subst h'
                            intro kv hkv
                            rcases List.mem_cons.mp hkv with h1 | h1
                            · subst h1
                              refine ⟨?_, ?_⟩
                              · intro d hd
                                exact List.mem_cons_of_mem _ (hkcs d hd)
                              · intro d hd
                                exact List.mem_cons_of_mem _ (hr3cs _ (hvr3 d hd))
                            · cases h1
                          · rw [if_neg hend] at h
                            cases h
                  · rw [if_neg hq2] at h; cases h
              · rw [if_neg hc1] at h; cases h
        · rw [if_neg hq] at h; cases h
  | succ n ih =>
    intro cs m h hb
    cases cs with
    | nil => rw [parseDictBody.eq_def] at h; cases h
    | cons c cs' =>
      rw [parseDictBody.eq_def] at h
      dsimp only at h
      by_cases hbrace : c = Char.ofNat 125
      · rw [if_pos hbrace] at h
        by_cases hnil : cs' = []
        · rw [if_pos hnil] at h
          injection h with h'
          subst h'
          intro kv hkv
          cases hkv
        · rw [if_neg hnil] at h
          cases h
      · rw [if_neg hbrace] at h
        by_cases hq : isQuote c = true
        · rw [if_pos hq] at h
          cases hk1 : pyStrBody c cs'.length cs' with
          | none => rw [hk1] at h; cases h
          | some pr1 =>
            obtain ⟨k, r1⟩ := pr1
            rw [hk1] at h
            have hbt : '\\' ∉ cs' := fun hx => hb (List.mem_cons_of_mem _ hx)
            obtain ⟨hkcs, hr1cs, _⟩ :=
              pyStrBody_subset c cs'.length cs' k r1 hk1 hbt
            cases r1 with
            | nil => cases h
            | cons c1 r2 =>
              dsimp only at h
              by_cases hc1 : c1 = ':'
              · rw [if_pos hc1] at h
                cases r2 with
                | nil => cases h
                | cons q2 r3 =>
                  dsimp only at h
                  by_cases hq2 : isQuote q2 = true
                  · rw [if_pos hq2] at h
                    have hr3cs : ∀ d ∈ r3, d ∈ cs' :=
                      fun d hd => hr1cs d (by simp [hd])
                    have hb3 : '\\' ∉ r3 := fun hx => hbt (hr3cs _ hx)
                    cases hk2 : pyStrBody q2 r3.length r3 with
                    | none => rw [hk2] at h; cases h
                    | some pr2 =>
                      obtain ⟨v, r4⟩ := pr2
                      rw [hk2] at h
                      obtain ⟨hvr3, hr4r3, _⟩ :=
                        pyStrBody_subset q2 r3.length r3 v r4 hk2 hb3
                      cases r4 with
                      | nil => cases h
                      | cons c4 r5 =>
                        dsimp only at h
                        have hr5cs : ∀ d ∈ r5, d ∈ cs' :=
                          fun d hd => hr3cs _ (hr4r3 d (List.mem_cons_of_mem _ hd))
                        by_cases hc4 : c4 = ','
                        · rw [if_pos hc4] at h
                          cases hrec : parseDictBody n r5 with
                          | none => rw [hrec] at h; cases h
                          | some rest =>
                            rw [hrec] at h
                            simp only [Option.map_some', Option.some.injEq] at h
                            subst h
                            have hb5 : '\\' ∉ r5 := fun hx => hbt (hr5cs _ hx)
                            intro kv hkv
                            rcases List.mem_cons.mp hkv with h1 | h1
                            · subst h1
                              refine ⟨?_, ?_⟩
                              · intro d hd
                                exact List.mem_cons_of_mem _ (hkcs d hd)
                              · intro d hd
                                exact List.mem_cons_of_mem _ (hr3cs _ (hvr3 d hd))
                            · obtain ⟨ih1, ih2⟩ := ih r5 rest hrec hb5 kv h1
                              refine ⟨?_, ?_⟩
                              · intro d hd
                                exact List.mem_cons_of_mem _ (hr5cs _ (ih1 d hd))
                              · intro d hd
                                exact List.mem_cons_of_mem _ (hr5cs _ (ih2 d hd))
                        · rw [if_neg hc4] at h
                          by_cases hend : c4 = Char.ofNat 125 ∧ r5 = []
                          · rw [if_pos hend] at h
                            injection h with h'
                            subst h'
                            intro kv hkv
                            rcases List.mem_cons.mp hkv with h1 | h1
                            · subst h1
                              refine ⟨?_, ?_⟩
                              · intro d hd
                                exact List.mem_cons_of_mem _ (hkcs d hd)
                              · intro d hd
                                exact List.mem_cons_of_mem _ (hr3cs _ (hvr3 d hd))
                            · cases h1
                          · rw [if_neg hend] at h
                            cases h
                  · rw [if_neg hq2] at h; cases h
              · rw [if_neg hc1] at h; cases h
        · rw [if_neg hq] at h; cases h

/-- C9 (counterexample): the key of the mapping text \x7b"a\x20b":"C3"\x7d
contains no literal space, so the space/newline deletion leaves the text
unchanged — yet `ast.literal_eval` decodes the \x20 escape, producing the
parsed key "a b" WITH a space; a classification_name "a b" therefore CAN
equal a parsed mapping key, refuting "can never equal". -/
theorem claim_C9_counterexample :
    preprocessMapping "\x7b\"a\\x20b\":\"C3\"\x7d" = "\x7b\"a\\x20b\":\"C3\"\x7d" ∧
    load_mapping "\x7b\"a\\x20b\":\"C3\"\x7d" = some [("a b", "C3")] ∧
    ' ' ∈ ("a b" : String).data := by
  refine ⟨rfl, rfl, by decide⟩

/-- C9 (amended): both mapping readers delete every space and newline from
the whole text before `ast.literal_eval`, so the preprocessed text is
space- and newline-free; consequently, provided the text uses no backslash
escape, every parsed key and value is space-free and a classification_name
containing a space can never equal any parsed mapping key — but a key
written with an escape such as \x20 (see the counterexample) evades the
deletion. -/
theorem claim_C9_mapping_whitespace (s : String) :
    (∀ c ∈ (preprocessMapping s).data, c ≠ ' ' ∧ c ≠ '\n') ∧
    (∀ m, load_mapping s = some m → '\\' ∉ (preprocessMapping s).data →
      ∀ kv ∈ m, (' ' ∉ kv.1.data ∧ ' ' ∉ kv.2.data) ∧
        ∀ nm : String, ' ' ∈ nm.data → kv.1 ≠ nm) := by
  have hnosp : ∀ c ∈ (preprocessMapping s).data, c ≠ ' ' ∧ c ≠ '\n' := by
    intro c hc
    have hc' : c ∈ List.filter (fun d => d ≠ ' ')
        (List.filter (fun d => d ≠ '\n') s.data) := hc
    rw [List.mem_filter] at hc'
    obtain ⟨hcn, hcsp⟩ := hc'
    rw [List.mem_filter] at hcn
    exact ⟨by simpa using hcsp, by simpa using hcn.2⟩
  refine ⟨hnosp, ?_⟩
  intro m hm hbs kv hkv
  unfold load_mapping literal_eval_mapping at hm
  cases hd : (preprocessMapping s).data with
  | nil => rw [hd] at hm; cases hm
  | cons c cs =>
    rw [hd] at hm
    dsimp only at hm
    by_cases hob : c = Char.ofNat 123
    · rw [if_pos hob] at hm
      cases hpb : parseDictBody cs.length cs with
      | none => rw [hpb] at hm; cases hm
      | some l =>
        rw [hpb] at hm
        simp only [Option.map_some', Option.some.injEq] at hm
        subst hm
        obtain ⟨kv0, hkv0, hkveq⟩ := List.mem_map.mp hkv
        have hbs' : '\\' ∉ cs :=
          fun hx => hbs (by rw [hd]; exact List.mem_cons_of_mem _ hx)
        obtain ⟨h1, h2⟩ := parseDictBody_subset cs.length cs l hpb hbs' kv0 hkv0
        have hk1 : kv.1.data = kv0.1 := by rw [← hkveq]
        have hk2 : kv.2.data = kv0.2 := by rw [← hkveq]
        have hsp1 : ' ' ∉ kv.1.data := by
          rw [hk1]
          intro hx
          have hmem : (' ' : Char) ∈ cs := h1 _ hx
          exact (hnosp ' ' (by rw [hd]; exact List.mem_cons_of_mem _ hmem)).1 rfl
        have hsp2 : ' ' ∉ kv.2.data := by
          rw [hk2]
          intro hx
          have hmem : (' ' : Char) ∈ cs := h2 _ hx
          exact (hnosp ' ' (by rw [hd]; exact List.mem_cons_of_mem _ hmem)).1 rfl
        refine ⟨⟨hsp1, hsp2⟩, ?_⟩
        intro nm hnm heq
        apply hsp1
        rw [heq]
        exact hnm
    · rw [if_neg hob] at hm
      cases hm

/-- C9 witness: the amended theorem at the concrete mapping text
\x7b"a b":"C3"\x7d (a key written with a literal space): the parsed key is
"ab", space-free, and differs from the classification_name "a b". -/
theorem claim_C9_witness :
    (' ' ∉ ("ab" : String).data ∧ ' ' ∉ ("C3" : String).data) ∧
    ("ab" : String) ≠ "a b" :=
  ⟨((claim_C9_mapping_whitespace "\x7b\"a b\":\"C3\"\x7d").2
      [("ab", "C3")] rfl (by decide) ("ab", "C3") (by decide)).1,
   ((claim_C9_mapping_whitespace "\x7b\"a b\":\"C3\"\x7d").2
      [("ab", "C3")] rfl (by decide) ("ab", "C3") (by decide)).2 "a b" (by decide)⟩
